import Mathlib

/-!
Verification development for the study-planning agent system.

The embedding models, from the repository source:
- `save_schedule_json` and `load_schedule_json` from
  `app/services/tools/agent_tools.py` (persist / sync tools);
- `create_events_from_plan` from `app/services/tools/google_calendar.py`,
  with the external Google Calendar collaborator abstracted as a function
  from an event body to an accept/reject result;
- the streaming loops `run_conversation` and `run_conversation_with_socket`
  from `app/agents/study_planning_team.py`, with the agent team's message
  stream abstracted as a list of yielded items (a message or a raised error);
- the next-speaker selection policy and the turn-budget loop, which in the
  source are delegated to the external autogen framework (`SelectorGroupChat`
  driven by `selector_prompt`, `max_turns`, and
  `TextMentionTermination("EXIT")`), modelled from the spec where marked.

Python dictionaries with fixed key sets become structures; a possibly
missing key becomes an `Option` field; a raised exception becomes
`Except.error`; the single `plan.json` storage slot becomes an
`Option SavedPlan` value threaded through the tool functions.
-/

namespace StudyPlanning

/-- Character-list prefix test, used to implement substring search. -/
def hasPrefixChars : List Char → List Char → Bool
  | [], _ => true
  | _ :: _, [] => false
  | a :: as, b :: bs => a == b && hasPrefixChars as bs

/-- Character-list substring test: does `pat` occur somewhere in the list? -/
def containsChars (pat : List Char) : List Char → Bool
  | [] => hasPrefixChars pat []
  | c :: rest => hasPrefixChars pat (c :: rest) || containsChars pat rest

/-- Substring test on strings: does `pat` occur in `s`? -/
def strContains (s pat : String) : Bool :=
  containsChars pat.toList s.toList

/-- An incoming event record of the plan candidate handed to
`save_schedule_json`: a JSON object whose keys may each be absent.
Mirrors the item dictionaries read from `json_data["events"]`. -/
structure RawEvent where
  summary : Option String
  start : Option String
  «end» : Option String
  timeZone : Option String
  description : Option String
deriving DecidableEq, Repr

/-- The plan candidate passed to `save_schedule_json`: `json_data` with its
`events` list (a missing `events` key is the empty list, as in
`json_data.get("events", [])`). -/
structure RawPlan where
  events : List RawEvent
deriving DecidableEq, Repr

/-- A `start` or `end` object of the persisted plan format:
`{"dateTime": ..., "timeZone": ...}`. -/
structure TimeSpec where
  dateTime : String
  timeZone : String
deriving DecidableEq, Repr

/-- An event object of the persisted plan format, exactly the dictionary
built inside `save_schedule_json`: all keys always present. -/
structure GEvent where
  summary : String
  start : TimeSpec
  «end» : TimeSpec
  description : String
deriving DecidableEq, Repr

/-- The persisted document written to `plan.json`: a single field `events`. -/
structure SavedPlan where
  events : List GEvent
deriving DecidableEq, Repr

/-- Builds the persisted event object from a raw item, as the dictionary
literal in `save_schedule_json` does: `item["summary"]`, `item["start"]`
and `item["end"]` raise `KeyError` when absent (`none` here), while
`timeZone` defaults to `"Asia/Ho_Chi_Minh"` and `description` to `""`
via `item.get`. -/
def buildEvent (item : RawEvent) : Option GEvent :=
  match item.summary, item.start, item.«end» with
  | some s, some st, some en =>
      some { summary := s
             start := { dateTime := st, timeZone := item.timeZone.getD "Asia/Ho_Chi_Minh" }
             «end» := { dateTime := en, timeZone := item.timeZone.getD "Asia/Ho_Chi_Minh" }
             description := item.description.getD "" }
  | _, _, _ => none

/-- Whether the three fields whose absence raises `KeyError` in
`save_schedule_json` are all present. -/
def hasRequiredFields (item : RawEvent) : Bool :=
  item.summary.isSome && item.start.isSome && item.«end».isSome

/-- The first key whose lookup raises `KeyError` for an invalid item,
following the evaluation order of the dictionary literal in
`save_schedule_json`: `summary`, then `start`, then `end`. -/
def firstMissingKey (item : RawEvent) : String :=
  if item.summary.isNone then "summary"
  else if item.start.isNone then "start"
  else "end"

/-- The warning printed for a dropped record:
`❌ Missing required field: ...`. -/
def missingFieldWarning (item : RawEvent) : String :=
  "❌ Missing required field: " ++ firstMissingKey item

/-- Embedding of `save_schedule_json` (agent_tools.py). Input: the current
content of the `plan.json` slot and the plan candidate; output: the returned
message, the warnings printed for dropped records (in input order), and the
new slot content. Invalid items are skipped with a warning; with no valid
events the function returns `❌ No valid events to save.` without writing;
otherwise it overwrites the slot with `{"events": valid_events}` and returns
`✅ JSON SAVED`. -/
def save_schedule_json (slot : Option SavedPlan) (json_data : RawPlan) :
    String × List String × Option SavedPlan :=
  let valid_events := json_data.events.filterMap buildEvent
  let warnings :=
    (json_data.events.filter (fun i => (buildEvent i).isNone)).map missingFieldWarning
  if valid_events.isEmpty then
    ("❌ No valid events to save.", warnings, slot)
  else
    ("✅ JSON SAVED", warnings, some { events := valid_events })

/-- A created calendar event as reported by the external collaborator
(`created_event` with its `htmlLink`). -/
structure Created where
  link : String
deriving DecidableEq, Repr

/-- The event body built inside the loop of `create_events_from_plan`
(google_calendar.py): `summary` and `description` via `get` with defaults,
`start`/`end` fields accessed directly. On a persisted event every key is
present, so the defaults never fire. -/
def eventBody (e : GEvent) : GEvent :=
  { summary := e.summary
    description := e.description
    start := { dateTime := e.start.dateTime, timeZone := e.start.timeZone }
    «end» := { dateTime := e.«end».dateTime, timeZone := e.«end».timeZone } }

/-- The insertion loop of `create_events_from_plan`: one
`service.events().insert(...)` call per event, in order; the first rejection
propagates as an error (later events are not attempted, earlier creations
are not rolled back). `ins` abstracts the external calendar collaborator. -/
def insertAllEvents (ins : GEvent → Except String Created) :
    List GEvent → Except String (List Created)
  | [] => Except.ok []
  | e :: rest =>
    match ins (eventBody e) with
    | Except.error err => Except.error err
    | Except.ok r =>
      match insertAllEvents ins rest with
      | Except.error err => Except.error err
      | Except.ok rs => Except.ok (r :: rs)

/-- Embedding of `create_events_from_plan` (google_calendar.py): raises
`ValueError` when the plan has no events, otherwise inserts each event into
the external calendar. The OAuth credential handling is out of scope and
absorbed into `ins`. -/
def create_events_from_plan (ins : GEvent → Except String Created)
    (plan : SavedPlan) : Except String (List Created) :=
  if plan.events.isEmpty then Except.error "No events found in the study plan."
  else insertAllEvents ins plan.events

/-- Embedding of `load_schedule_json` (agent_tools.py): raises
`FileNotFoundError` (`❌ plan.json file not found.`) when the slot is empty,
otherwise reads the persisted document, syncs it via
`create_events_from_plan` (whose errors propagate), and returns the success
message together with the creations performed. -/
def load_schedule_json (ins : GEvent → Except String Created)
    (slot : Option SavedPlan) : Except String (String × List Created) :=
  match slot with
  | none => Except.error "❌ plan.json file not found."
  | some plan =>
    match create_events_from_plan ins plan with
    | Except.error e => Except.error e
    | Except.ok refs => Except.ok ("✅ Study plan synced to Google Calendar.", refs)

/-- A message object yielded by `team.run_stream`: `run_conversation` probes
its `name` and `content` attributes with `getattr` fallbacks, so each is
modelled as possibly absent. -/
structure StreamMsg where
  name : Option String
  content : Option String
deriving DecidableEq, Repr

/-- One step of the async stream consumed by `run_conversation`: either a
yielded message or an exception raised during a participant turn. -/
inductive StreamItem where
  | msg (m : StreamMsg)
  | raise (e : String)
deriving DecidableEq, Repr

/-- A conversation-history entry as appended by `run_conversation`:
`{"agent": getattr(message, "name", "Unknown"), "content":
getattr(message, "content", ""), "type": "message"}`. The wall-clock
`timestamp` field is omitted from the embedding. -/
structure MsgRec where
  agent : String
  content : String
  kind : String
deriving DecidableEq, Repr

/-- Conversion of a stream message into the appended history entry, with the
`getattr` defaults of `run_conversation`. -/
def toHistEntry (m : StreamMsg) : MsgRec :=
  { agent := m.name.getD "Unknown", content := m.content.getD "", kind := "message" }

/-- The value returned by `run_conversation`: on normal completion the dict
with `conversation_history`, `final_message` and `total_messages`; on a
caught exception the dict with `error` and the history accumulated so far. -/
inductive RunResult where
  | ok (history : List MsgRec) (finalMsg : Option MsgRec) (total : Nat)
  | err (error : String) (history : List MsgRec)
deriving DecidableEq, Repr

/-- The `async for` loop of `run_conversation` over the remaining stream,
carrying the history accumulated so far. A raised item is caught by the
surrounding `try`/`except` and turned into the error return value; the rest
of the stream is not consumed. -/
def run_conversation_loop : List StreamItem → List MsgRec → RunResult
  | [], hist => RunResult.ok hist hist.getLast? hist.length
  | StreamItem.msg m :: rest, hist => run_conversation_loop rest (hist ++ [toHistEntry m])
  | StreamItem.raise e :: _, hist => RunResult.err e hist

/-- Embedding of `StudyPlanningTeam.run_conversation`
(study_planning_team.py): consumes the stream produced by the agent team
(abstracted as a list of items), starting from an empty history. Its return
type is a plain value: an exception raised during the stream is captured
into `RunResult.err`, never re-raised to the caller. -/
def run_conversation (stream : List StreamItem) : RunResult :=
  run_conversation_loop stream []

/-- One `socketio_service.sio.emit('task_message', ...)` call performed by
`run_conversation_with_socket`. The `agent` field is `""` for the
`complete` and `error` emissions, which carry no agent. -/
structure Emission where
  taskId : String
  kind : String
  message : String
  agent : String
deriving DecidableEq, Repr

/-- The per-message `stream` emission: sent only when the message has a
`content` attribute; its agent falls back to `"system"`. -/
def streamEmission (taskId : String) (m : StreamMsg) : Emission :=
  { taskId := taskId, kind := "stream",
    message := m.content.getD "", agent := m.name.getD "system" }

/-- The loop of `run_conversation_with_socket` over the remaining stream,
carrying the accumulated history and the emissions already sent. `sink`
records whether a `socketio_service` is attached; emissions happen only
when it is. -/
def run_socket_loop (sink : Bool) (taskId : String) :
    List StreamItem → List MsgRec → List Emission → RunResult × List Emission
  | [], hist, ems =>
    (RunResult.ok hist hist.getLast? hist.length,
      if sink then
        ems ++ [{ taskId := taskId, kind := "complete",
                  message := "Study planning conversation completed", agent := "" }]
      else ems)
  | StreamItem.msg m :: rest, hist, ems =>
    run_socket_loop sink taskId rest (hist ++ [toHistEntry m])
      (if sink && m.content.isSome then ems ++ [streamEmission taskId m] else ems)
  | StreamItem.raise e :: _, hist, ems =>
    (RunResult.err e hist,
      if sink then
        ems ++ [{ taskId := taskId, kind := "error",
                  message := "Error in conversation: " ++ e, agent := "" }]
      else ems)

/-- Embedding of `StudyPlanningTeam.run_conversation_with_socket`
(study_planning_team.py): the same loop as `run_conversation` plus the
optional Socket.IO emissions. The function returns its result value and the
emissions performed; per spec §6 the sink is a decoupled notification
channel, so its `emit` is modelled as effect-only (it records an `Emission`
and does not fail). -/
def run_conversation_with_socket (sink : Bool) (taskId : String)
    (stream : List StreamItem) : RunResult × List Emission :=
  run_socket_loop sink taskId stream [] []

/-- The three fixed participants of the team
(`participants=[self.user_proxy, self.planner_agent, self.calendar_agent]`). -/
inductive Participant where
  | user
  | plannerAgent
  | calendarAgent
deriving DecidableEq, Repr

/-- Last-tool-call status of the session, per spec §3:
`{none, plan-saved, plan-sync-succeeded, plan-sync-failed}`. -/
inductive ToolStatus where
  | idle
  | planSaved
  | syncSucceeded
  | syncFailed
deriving DecidableEq, Repr

/-- Whether the tool success marker `✅ JSON SAVED` (the return value of a
successful `save_schedule_json`, quoted in rule 3 of `selector_prompt`)
occurs in the content of any history message. -/
def jsonSavedInHistory (hist : List MsgRec) : Bool :=
  hist.any (fun m => strContains m.content "✅ JSON SAVED")

/-- Whether the Planner has successfully invoked the persist tool for the
current negotiation: the last tool call reported `plan-saved`, or the
`✅ JSON SAVED` marker is already in the history. -/
def planSavedAchieved (hist : List MsgRec) (st : ToolStatus) : Bool :=
  st == ToolStatus.planSaved || jsonSavedInHistory hist

/-- Modelled from the spec: the next-speaker choice is made by the external
autogen `SelectorGroupChat` through an LLM call on `selector_prompt`, code
that is not part of this repository; it is modelled as the deterministic
precedence policy of spec §4.1, whose five rules mirror the prompt's rule
list in `StudyPlanningTeam._create_team`, evaluated top-down with first
match winning. `humanRequestsPlan` abstracts rule 1's judgement of the
latest Human message. -/
def next_speaker (humanRequestsPlan : Bool) (hist : List MsgRec)
    (st : ToolStatus) : Participant :=
  if humanRequestsPlan then Participant.plannerAgent
  else if !(planSavedAchieved hist st) then Participant.plannerAgent
  else if st == ToolStatus.planSaved then Participant.calendarAgent
  else if st == ToolStatus.syncSucceeded || st == ToolStatus.syncFailed then Participant.user
  else Participant.user

/-- Modelled from the spec: the agent framework's tool-execution step (not
in this repository's source) catches an exception raised by a tool and
reports it to the conversation as a result value (spec §2: ToolInvoker
"reports success/failure as a result value, not an exception surfaced to
the conversation"; spec §7: `PlanNotFound` is "surfaced, session
continues"). The sync tool's outcome becomes a message text and a status. -/
def invokeSyncTool (ins : GEvent → Except String Created)
    (slot : Option SavedPlan) : String × ToolStatus :=
  match load_schedule_json ins slot with
  | Except.ok (msg, _) => (msg, ToolStatus.syncSucceeded)
  | Except.error e => (e, ToolStatus.syncFailed)

/-- Whether a reply contains the termination sentinel `EXIT`, as checked by
`TextMentionTermination("EXIT")` configured in `StudyPlanningTeam._create_team`. -/
def containsSentinel (m : MsgRec) : Bool :=
  strContains m.content "EXIT"

/-- Modelled from the spec: the turn loop of the session is run by the
external autogen `SelectorGroupChat` (not in this repository's source);
per spec §4.3/§5 it repeats turns, stopping when a reply contains the
termination sentinel or when the turn counter reaches the configured
maximum. `runTurns reply budget taken` runs with `budget` turns remaining
and `taken` turns already executed, returning the total number of turns
executed; `reply i` is the reply produced on turn `i`. -/
def runTurns (reply : Nat → MsgRec) : Nat → Nat → Nat
  | 0, taken => taken
  | budget + 1, taken =>
    if containsSentinel (reply taken) then taken + 1
    else runTurns reply budget (taken + 1)

/-- Number of turns a session with the given turn budget executes. -/
def turnsTaken (reply : Nat → MsgRec) (maxTurns : Nat) : Nat :=
  runTurns reply maxTurns 0

/-- Lexicographic order on character lists, used to compare timestamp
strings when formalising the spec's "end must be > start". -/
def charListLt : List Char → List Char → Bool
  | [], [] => false
  | [], _ :: _ => true
  | _ :: _, [] => false
  | a :: as, b :: bs => a < b || (a == b && charListLt as bs)

/-- Lexicographic string comparison (matches chronological order on
equal-length ISO-8601 timestamps). -/
def strLtB (s t : String) : Bool :=
  charListLt s.toList t.toList

/-- Modelled from the spec's words (§3), for comparison with the source's
validation: an EventRecord is structurally valid when its summary is
present and non-empty, start and end are present, and the end timestamp is
strictly greater than the start timestamp. -/
def specValidEvent (item : RawEvent) : Bool :=
  match item.summary, item.start, item.«end» with
  | some s, some st, some en => !(s == "") && strLtB st en
  | _, _, _ => false

/-- A fully populated valid plan item (the example of the Planner's system
message). -/
def validItem : RawEvent :=
  { summary := some "Learn Math"
    start := some "2025-07-25T08:00:00"
    «end» := some "2025-07-25T09:30:00"
    timeZone := some "Asia/Ho_Chi_Minh"
    description := some "Review integrals" }

/-- A plan candidate with one valid record and two invalid records (one
missing `summary`, one missing `start`). -/
def onePlusTwoPlan : RawPlan :=
  { events :=
      [ validItem,
        { summary := none, start := some "2025-07-25T10:00:00",
          «end» := some "2025-07-25T11:00:00", timeZone := none, description := none },
        { summary := some "Learn Physics", start := none,
          «end» := some "2025-07-25T12:00:00", timeZone := none, description := none } ] }

/-- A plan candidate in which every record is missing `summary`. -/
def allMissingSummaryPlan : RawPlan :=
  { events :=
      [ { summary := none, start := some "2025-07-25T08:00:00",
          «end» := some "2025-07-25T09:00:00", timeZone := none, description := none },
        { summary := none, start := some "2025-07-25T10:00:00",
          «end» := some "2025-07-25T11:00:00", timeZone := none, description := none } ] }

/-- A plan candidate whose single record has all three required keys but an
empty summary and an end timestamp earlier than its start timestamp, so it
satisfies none of the spec's structural-validity requirements beyond key
presence. -/
def noSpecValidPlan : RawPlan :=
  { events :=
      [ { summary := some "", start := some "2025-07-25T09:00:00",
          «end» := some "2025-07-25T08:00:00",
          timeZone := some "Asia/Ho_Chi_Minh", description := none } ] }

/-- A single-record valid plan used to instantiate general theorems. -/
def singleValidPlan : RawPlan :=
  { events := [validItem] }

/-- A reply source whose messages never contain the termination sentinel. -/
def constDraftReply : Nat → MsgRec :=
  fun _ => { agent := "PlannerAgent", content := "Here is a draft plan", kind := "message" }

/-- The persist tool keeps a record exactly when its three required keys are
present. -/
theorem buildEvent_isSome (item : RawEvent) :
    (buildEvent item).isSome = hasRequiredFields item := by
  rcases item with ⟨s, st, en, tz, d⟩
  cases s <;> cases st <;> cases en <;> simp [buildEvent, hasRequiredFields]

/-- Over a list of records that all have the required keys, validation drops
nothing. -/
theorem length_filterMap_buildEvent (l : List RawEvent)
    (h : ∀ i ∈ l, hasRequiredFields i = true) :
    (l.filterMap buildEvent).length = l.length := by
  induction l with
  | nil => rfl
  | cons a as ih =>
    have ha : (buildEvent a).isSome = true := by
      rw [buildEvent_isSome]; exact h a (List.mem_cons_self a as)
    rcases Option.isSome_iff_exists.mp ha with ⟨e, he⟩
    simp [List.filterMap_cons, he,
      ih (fun i hi => h i (List.mem_cons_of_mem a hi))]

/-- The body rebuilt by the calendar sync loop coincides with the persisted
event. -/
theorem eventBody_eq (e : GEvent) : eventBody e = e := by
  rcases e with ⟨s, ⟨sd, stz⟩, ⟨ed, etz⟩, d⟩
  rfl

/-- With a collaborator that accepts every insertion, the insertion loop
creates one event per persisted record, in order. -/
theorem insertAllEvents_allOk (ref : GEvent → Created) (l : List GEvent) :
    insertAllEvents (fun e => Except.ok (ref e)) l = Except.ok (l.map ref) := by
  induction l with
  | nil => rfl
  | cons a as ih => simp [insertAllEvents, eventBody_eq, ih]

/-- The persist tool drops a record exactly when one of its three required
keys is absent. -/
theorem buildEvent_isNone (item : RawEvent) :
    (buildEvent item).isNone = !hasRequiredFields item := by
  rw [← buildEvent_isSome]
  cases buildEvent item <;> rfl

/-- Validation yields no survivors exactly when no record of the list has
all required keys. -/
theorem filterMap_buildEvent_isEmpty (l : List RawEvent) :
    (l.filterMap buildEvent).isEmpty = !(l.any hasRequiredFields) := by
  induction l with
  | nil => rfl
  | cons a as ih =>
    cases hb : buildEvent a with
    | none =>
      have ha : hasRequiredFields a = false := by
        rw [← buildEvent_isSome, hb]; rfl
      simp [List.filterMap_cons, hb, ha, ih]
    | some e =>
      have ha : hasRequiredFields a = true := by
        rw [← buildEvent_isSome, hb]; rfl
      simp [List.filterMap_cons, hb, ha]

/-- A session whose replies never contain the termination sentinel consumes
its whole turn budget: with `b` turns remaining after `t` executed turns, it
executes exactly `t + b` turns in total. -/
theorem runTurns_no_sentinel (reply : Nat → MsgRec)
    (h : ∀ i, containsSentinel (reply i) = false) :
    ∀ b t : Nat, runTurns reply b t = t + b := by
  intro b
  induction b with
  | zero => intro t; simp [runTurns]
  | succ n ih =>
    intro t
    simp [runTurns, h t, ih (t + 1)]
    omega

/-- The stream loop on a raising stream returns the error together with the
history accumulated before the raise, independently of the rest of the
stream. -/
theorem run_conversation_loop_raise (pre : List StreamMsg) (e : String)
    (rest : List StreamItem) (hist : List MsgRec) :
    run_conversation_loop (pre.map StreamItem.msg ++ StreamItem.raise e :: rest) hist
      = RunResult.err e (hist ++ pre.map toHistEntry) := by
  induction pre generalizing hist with
  | nil => simp [run_conversation_loop]
  | cons m ms ih => simp [run_conversation_loop, ih]

/-- The result component of the socket loop does not depend on the sink nor
on the emissions accumulated so far. -/
theorem run_socket_loop_fst (s1 s2 : Bool) (t : String)
    (stream : List StreamItem) (hist : List MsgRec) (e1 e2 : List Emission) :
    (run_socket_loop s1 t stream hist e1).1 = (run_socket_loop s2 t stream hist e2).1 := by
  induction stream generalizing hist e1 e2 with
  | nil => simp [run_socket_loop]
  | cons item rest ih =>
    cases item with
    | msg m => simp [run_socket_loop]; exact ih _ _ _
    | raise e => simp [run_socket_loop]

/-- C1: for every conversation history in which the Planner has not yet
achieved tool status plan-saved (`save_schedule_json` has not successfully
returned for the current negotiation, so neither the status nor the
`✅ JSON SAVED` marker witnesses a save), the turn selector never selects
the Syncer (CalendarAgent) as the next speaker. -/
theorem c1_no_syncer_before_save (humanRequestsPlan : Bool)
    (hist : List MsgRec) (st : ToolStatus)
    (h1 : st ≠ ToolStatus.planSaved)
    (h2 : jsonSavedInHistory hist = false) :
    next_speaker humanRequestsPlan hist st ≠ Participant.calendarAgent := by
  have hb : (st == ToolStatus.planSaved) = false := by
    cases st <;> simp_all
  cases humanRequestsPlan <;>
    simp [next_speaker, planSavedAchieved, hb, h2]

/-- Witness for C1 at a concrete input: the empty history with no tool call
yet never hands the turn to the CalendarAgent. -/
theorem c1_no_syncer_before_save_witness :
    ToolStatus.idle ≠ ToolStatus.planSaved
    ∧ jsonSavedInHistory [] = false
    ∧ next_speaker false [] ToolStatus.idle ≠ Participant.calendarAgent :=
  ⟨by decide, by decide,
    c1_no_syncer_before_save false [] ToolStatus.idle (by decide) (by decide)⟩

/-- C2: `save_schedule_json` fails with the no-valid-events message exactly
when zero records survive validation and succeeds otherwise, always
emitting one dropped-record warning per invalid record; in particular a
plan with 1 valid and 2 invalid records yields the success message, a
persisted document of 1 event and two warnings, while a plan whose records
all lack `summary` fails with the no-valid-events message. -/
theorem c2_persist_failure_iff :
    (∀ (slot : Option SavedPlan) (p : RawPlan),
        (save_schedule_json slot p).1
          = (if (p.events.filterMap buildEvent).isEmpty
             then "❌ No valid events to save." else "✅ JSON SAVED")
        ∧ (save_schedule_json slot p).2.1.length
          = (p.events.filter (fun i => (buildEvent i).isNone)).length)
    ∧ (save_schedule_json none onePlusTwoPlan).1 = "✅ JSON SAVED"
    ∧ ((save_schedule_json none onePlusTwoPlan).2.2.map
        (fun sp => sp.events.length)) = some 1
    ∧ (save_schedule_json none onePlusTwoPlan).2.1.length = 2
    ∧ (save_schedule_json none allMissingSummaryPlan).1
        = "❌ No valid events to save." := by
  refine ⟨fun slot p => ⟨?_, ?_⟩, by decide, by decide, by decide, by decide⟩
  · by_cases h : (p.events.filterMap buildEvent).isEmpty <;>
      simp [save_schedule_json, h]
  · by_cases h : (p.events.filterMap buildEvent).isEmpty <;>
      simp [save_schedule_json, h]

/-- C3: with nothing persisted, `load_schedule_json` fails with the
plan-not-found error, and the tool-invocation step reports that failure as
an ordinary result value (message text plus failed status), not as an
exception surfaced to the conversation. -/
theorem c3_plan_not_found :
    ∀ ins : GEvent → Except String Created,
      load_schedule_json ins none = Except.error "❌ plan.json file not found."
      ∧ invokeSyncTool ins none
        = ("❌ plan.json file not found.", ToolStatus.syncFailed) :=
  fun _ => ⟨rfl, rfl⟩

/-- C4: a plan whose records are all valid, persisted and then synced
against a collaborator that accepts every insertion, yields a successful
sync with exactly one external creation per record, the persisted document
being read back by sync exactly as persist wrote it. -/
theorem c4_round_trip (slot : Option SavedPlan) (p : RawPlan)
    (ref : GEvent → Created)
    (hvalid : ∀ i ∈ p.events, hasRequiredFields i = true)
    (hne : p.events ≠ []) :
    (save_schedule_json slot p).2.2
      = some { events := p.events.filterMap buildEvent }
    ∧ load_schedule_json (fun e => Except.ok (ref e)) (save_schedule_json slot p).2.2
      = Except.ok ("✅ Study plan synced to Google Calendar.",
          (p.events.filterMap buildEvent).map ref)
    ∧ ((p.events.filterMap buildEvent).map ref).length = p.events.length := by
  have hlen : (p.events.filterMap buildEvent).length = p.events.length :=
    length_filterMap_buildEvent p.events hvalid
  have hne2 : (p.events.filterMap buildEvent).isEmpty = false := by
    cases hfm : p.events.filterMap buildEvent with
    | nil =>
      exfalso
      apply hne
      have := hlen
      rw [hfm] at this
      exact List.length_eq_zero.mp this.symm
    | cons a as => rfl
  have h1 : (save_schedule_json slot p).2.2
      = some { events := p.events.filterMap buildEvent } := by
    simp [save_schedule_json, hne2]
  refine ⟨h1, ?_, by rw [List.length_map, hlen]⟩
  rw [h1]
  simp [load_schedule_json, create_events_from_plan, hne2, insertAllEvents_allOk]

/-- Witness for C4 at a concrete input: one valid record round-trips into
one external creation. -/
theorem c4_round_trip_witness :
    (∀ i ∈ singleValidPlan.events, hasRequiredFields i = true)
    ∧ singleValidPlan.events ≠ []
    ∧ ((save_schedule_json none singleValidPlan).2.2
        = some { events := singleValidPlan.events.filterMap buildEvent }
      ∧ load_schedule_json (fun e => Except.ok (Created.mk e.summary))
          (save_schedule_json none singleValidPlan).2.2
        = Except.ok ("✅ Study plan synced to Google Calendar.",
            (singleValidPlan.events.filterMap buildEvent).map
              (fun e => Created.mk e.summary))
      ∧ ((singleValidPlan.events.filterMap buildEvent).map
          (fun e => Created.mk e.summary)).length
        = singleValidPlan.events.length) :=
  ⟨by decide, by decide,
    c4_round_trip none singleValidPlan (fun e => Created.mk e.summary)
      (by decide) (by decide)⟩

/-- C5: persisting the same valid plan twice overwrites the single storage
slot (the second call succeeds and the slot holds exactly the plan's valid
events once, nothing appended), and a sync performed afterwards reads only
the most recently persisted content. -/
theorem c5_overwrite (slot : Option SavedPlan) (p : RawPlan)
    (h : p.events.any hasRequiredFields = true) :
    (save_schedule_json (save_schedule_json slot p).2.2 p).1 = "✅ JSON SAVED"
    ∧ (save_schedule_json (save_schedule_json slot p).2.2 p).2.2
      = some { events := p.events.filterMap buildEvent }
    ∧ ∀ ins : GEvent → Except String Created,
        load_schedule_json ins (save_schedule_json (save_schedule_json slot p).2.2 p).2.2
          = load_schedule_json ins (some { events := p.events.filterMap buildEvent }) := by
  have hne : (p.events.filterMap buildEvent).isEmpty = false := by
    rw [filterMap_buildEvent_isEmpty, h]
    rfl
  refine ⟨?_, ?_, ?_⟩ <;> simp [save_schedule_json, hne]

/-- Witness for C5 at a concrete input: saving the single-record valid plan
twice leaves one persisted copy of its event. -/
theorem c5_overwrite_witness :
    singleValidPlan.events.any hasRequiredFields = true
    ∧ ((save_schedule_json (save_schedule_json none singleValidPlan).2.2 singleValidPlan).1
        = "✅ JSON SAVED"
      ∧ (save_schedule_json (save_schedule_json none singleValidPlan).2.2 singleValidPlan).2.2
        = some { events := singleValidPlan.events.filterMap buildEvent }
      ∧ ∀ ins : GEvent → Except String Created,
          load_schedule_json ins
              (save_schedule_json (save_schedule_json none singleValidPlan).2.2 singleValidPlan).2.2
            = load_schedule_json ins
              (some { events := singleValidPlan.events.filterMap buildEvent })) :=
  ⟨by decide, c5_overwrite none singleValidPlan (by decide)⟩

/-- C6: a session with a turn budget of 5 whose replies never contain the
termination sentinel terminates exactly at turn 5, not before and not
after. -/
theorem c6_turn_budget (reply : Nat → MsgRec)
    (h : ∀ i, containsSentinel (reply i) = false) :
    turnsTaken reply 5 = 5 := by
  simpa [turnsTaken] using runTurns_no_sentinel reply h 5 0

/-- Witness for C6 at a concrete input: a session whose every reply is a
sentinel-free draft runs exactly 5 turns. -/
theorem c6_turn_budget_witness :
    (∀ i, containsSentinel (constDraftReply i) = false)
    ∧ turnsTaken constDraftReply 5 = 5 :=
  ⟨fun _ => rfl, c6_turn_budget constDraftReply (fun _ => rfl)⟩

/-- C7: an uncaught error raised during a participant turn is captured by
`run_conversation` into its returned result value (not re-raised), the
session stops consuming the stream there, and the result retains the
conversation history accumulated up to the failure. -/
theorem c7_error_captured (pre : List StreamMsg) (e : String)
    (rest : List StreamItem) :
    run_conversation (pre.map StreamItem.msg ++ StreamItem.raise e :: rest)
      = RunResult.err e (pre.map toHistEntry) := by
  simpa using run_conversation_loop_raise pre e rest []

/-- C9: running `run_conversation_with_socket` with no notification sink
attached produces the same result value — conversation history, final
message, totals, and error capture — as running it with a sink attached. -/
theorem c9_sink_noninterference (taskId : String) (stream : List StreamItem) :
    (run_conversation_with_socket true taskId stream).1
      = (run_conversation_with_socket false taskId stream).1 :=
  run_socket_loop_fst true false taskId stream [] [] []

/-- C8 counterexample: a plan whose single record has an empty summary and
an end timestamp earlier than its start — hence zero records satisfying the
spec's structural validity — is nevertheless persisted successfully, so
persistence does not require a structurally valid record in the spec's
sense. -/
theorem c8_counterexample :
    (∀ i ∈ noSpecValidPlan.events, specValidEvent i = false)
    ∧ (save_schedule_json none noSpecValidPlan).1 = "✅ JSON SAVED"
    ∧ (save_schedule_json none noSpecValidPlan).2.2
      = some { events :=
          [ { summary := ""
              start := { dateTime := "2025-07-25T09:00:00", timeZone := "Asia/Ho_Chi_Minh" }
              «end» := { dateTime := "2025-07-25T08:00:00", timeZone := "Asia/Ho_Chi_Minh" }
              description := "" } ] } := by
  decide

/-- C8 (amended): a plan persists exactly when it contains at least one
record with the `summary`, `start` and `end` keys present (no non-empty or
end-after-start check is made); records missing one of these keys are
dropped, each with a warning, while the surviving records are persisted. -/
theorem c8_required_fields_validity (slot : Option SavedPlan) (p : RawPlan) :
    ((save_schedule_json slot p).1 = "✅ JSON SAVED"
      ↔ p.events.any hasRequiredFields = true)
    ∧ (save_schedule_json slot p).2.1
      = (p.events.filter (fun i => !hasRequiredFields i)).map missingFieldWarning
    ∧ (save_schedule_json slot p).2.2
      = (if p.events.any hasRequiredFields
         then some { events := p.events.filterMap buildEvent } else slot) := by
  have hfilter : p.events.filter (fun i => (buildEvent i).isNone)
      = p.events.filter (fun i => !hasRequiredFields i) :=
    List.filter_congr (fun i _ => buildEvent_isNone i)
  refine ⟨?_, ?_, ?_⟩
  · by_cases h : p.events.any hasRequiredFields <;>
      simp [save_schedule_json, filterMap_buildEvent_isEmpty, h]
  · by_cases h : (p.events.filterMap buildEvent).isEmpty <;>
      simp [save_schedule_json, h, hfilter]
  · by_cases h : p.events.any hasRequiredFields <;>
      simp [save_schedule_json, filterMap_buildEvent_isEmpty, h]

/-- C10: a record with `summary`, `start` and `end` but no `timeZone` is
not dropped: persist fills in the default timezone `Asia/Ho_Chi_Minh` for
both start and end and an empty string for a missing description, and a
record is kept exactly when the three keys `summary`, `start`, `end` are
present. -/
theorem c10_default_timezone (s a b : String) :
    buildEvent { summary := some s, start := some a, «end» := some b,
                 timeZone := none, description := none }
      = some { summary := s
               start := { dateTime := a, timeZone := "Asia/Ho_Chi_Minh" }
               «end» := { dateTime := b, timeZone := "Asia/Ho_Chi_Minh" }
               description := "" }
    ∧ save_schedule_json none
        { events := [ { summary := some s, start := some a, «end» := some b,
                        timeZone := none, description := none } ] }
      = ("✅ JSON SAVED", [],
         some { events :=
            [ { summary := s
                start := { dateTime := a, timeZone := "Asia/Ho_Chi_Minh" }
                «end» := { dateTime := b, timeZone := "Asia/Ho_Chi_Minh" }
                description := "" } ] })
    ∧ (∀ i : RawEvent, (buildEvent i).isSome = hasRequiredFields i) :=
  ⟨rfl, rfl, buildEvent_isSome⟩

end StudyPlanning
